import Mathlib

/-!
Verification of the kruda columnar table engine's core against its
natural-language specification.

The development shallowly embeds the relevant parts of two source files:

* `src/data/table/Table.js` — row access (`getRow` / `getBinaryRow` with the
  debug-only bounds check), `forEach` and the iterable protocol.
* `src/data/filter/FilterProcessor.js` — compilation of a DNF/CNF filter
  expression into a row tester (`_generateExpressionTester`,
  `_generateClauseTester`, `_generateRuleTester`), compilation of the result
  writer (`_generateResultWriter`), the batched scan loop (`process`), and the
  worker message handler (`filterWorkerOnMessage`).

Machine numbers are modelled as `Int` (the claims only exercise integer-valued
doubles, on which IEEE-754 arithmetic is exact); a JavaScript `NaN` produced by
`parseFloat` is modelled as `none : Option Int`.  A JavaScript exception raised
while evaluating a tester at a row is modelled as `none : Option Bool`; an
exception raised while compiling a tester is modelled as `Except.error`.
-/

namespace Kruda

/-- The two filter expression modes (`FilterExpressionMode.js`, values `DNF`
and `CNF` per the spec; `_generateExpressionTester` treats every non-DNF mode
as CNF, and the wire form only carries these two). -/
inductive FilterExpressionMode
  | DNF
  | CNF
deriving DecidableEq

/-! ### Expression and clause testers over abstract rule testers

`_generateClauseTester` and `_generateExpressionTester` loop over arrays of
zero-argument boolean testers.  For a fixed row each rule tester evaluates to
a boolean, so the two aggregation loops are embedded here as functions over
the lists of those boolean values.  To make the short-circuiting observable,
each embedded loop returns a pair: the boolean the source closure returns,
and the number of inner testers the loop invoked before returning. -/

/-- The clause tester built by `_generateClauseTester` in DNF mode
(`ruleTesterDNF` in the source): ANDs its rule testers, returning `false` at
the first rule tester that yields `false`.  The second component counts how
many rule testers were invoked. -/
def ruleTesterDNF : List Bool → Bool × Nat
  | [] => (true, 0)
  | b :: bs => if !b then (false, 1) else ((ruleTesterDNF bs).1, (ruleTesterDNF bs).2 + 1)

/-- The clause tester built by `_generateClauseTester` in CNF mode
(`ruleTesterCNF` in the source): ORs its rule testers, returning `true` at the
first rule tester that yields `true`.  The second component counts how many
rule testers were invoked. -/
def ruleTesterCNF : List Bool → Bool × Nat
  | [] => (false, 0)
  | b :: bs => if b then (true, 1) else ((ruleTesterCNF bs).1, (ruleTesterCNF bs).2 + 1)

/-- Mode dispatch of `_generateClauseTester`: DNF clauses AND their rules,
every other mode ORs them. -/
def generateClauseTester (mode : FilterExpressionMode) (clause : List Bool) : Bool × Nat :=
  match mode with
  | .DNF => ruleTesterDNF clause
  | .CNF => ruleTesterCNF clause

/-- The expression tester built by `_generateExpressionTester` in DNF mode
(`filterTesterDNF` in the source): ORs its clause testers, returning `true` at
the first clause tester that yields `true`.  The second component counts how
many clause testers were invoked. -/
def filterTesterDNF : List (List Bool) → Bool × Nat
  | [] => (false, 0)
  | c :: cs =>
    if (ruleTesterDNF c).1 then (true, 1) else ((filterTesterDNF cs).1, (filterTesterDNF cs).2 + 1)

/-- The expression tester built by `_generateExpressionTester` in CNF mode
(`filterTesterCNF` in the source): ANDs its clause testers, returning `false`
at the first clause tester that yields `false`.  The second component counts
how many clause testers were invoked. -/
def filterTesterCNF : List (List Bool) → Bool × Nat
  | [] => (true, 0)
  | c :: cs =>
    if !(ruleTesterCNF c).1 then (false, 1)
    else ((filterTesterCNF cs).1, (filterTesterCNF cs).2 + 1)

/-- Mode dispatch of the expression-level loops. -/
def expressionTesterRun (mode : FilterExpressionMode) (clauses : List (List Bool)) : Bool × Nat :=
  match mode with
  | .DNF => filterTesterDNF clauses
  | .CNF => filterTesterCNF clauses

/-- `_generateExpressionTester`, lines 138-170: an absent (`none`) or empty
clause list yields `filterTesterEmpty`, which returns `true`; otherwise the
mode-specific aggregation loop runs (the source guard is
`!expression || !expression.length`). -/
def generateExpressionTester (mode : FilterExpressionMode)
    (expression : Option (List (List Bool))) : Bool :=
  match expression with
  | none => true
  | some clauses =>
    if clauses.isEmpty then true
    else (expressionTesterRun mode clauses).1

/-! ### Table.getRow / Table.getBinaryRow (debug builds)

The debug-only guard in `Table.getRow` (and identically in `getBinaryRow`) is
`if (!index >= this.rowCount) throw 'ERROR: Index out of bounds!'`.  In
JavaScript `!index` is a boolean (`true` exactly when `index` is `0`), which
`>=` then coerces to the number `1` or `0`. -/

/-- JavaScript `!` applied to a number, then coerced back to a number by a
relational operator: `!0` is `true` (numerically `1`); any other operand gives
`false` (numerically `0`). -/
def jsNotNum (index : Nat) : Nat :=
  if index = 0 then 1 else 0

/-- `Table.getRow(index)` in a debug build: raises the out-of-bounds error
exactly when `(!index) >= rowCount` holds after coercion, otherwise positions
and returns a row at `index`.  `getBinaryRow` has the identical guard. -/
def getRow (rowCount index : Nat) : Except String Nat :=
  if rowCount ≤ jsNotNum index then .error "ERROR: Index out of bounds!"
  else .ok index

/-! ### Table.forEach and the iterable protocol -/

/-- `Table.forEach(itr)`: invokes `itr` at row index `0` unconditionally, then
loops `for (let i = 1, n = this.rowCount; i < n; ++i)`.  The callback receives
the single reused `Row` instance positioned at each index in turn; the model
returns the list of callback results in invocation order. -/
def forEachRun (rowCount : Nat) (itr : Nat → α) : List α :=
  itr 0 :: (List.range' 1 (rowCount - 1)).map itr

/-- The iterator state returned by `Table[Symbol.iterator]()`: a cursor `i`
and the captured `n = rowCount` (the `Row` instance it repositions is
identified with the index it yields). -/
structure TableIterator where
  i : Nat
  n : Nat

/-- One `next()` call: yields the current index and advances while `i < n`,
otherwise reports `done`. -/
def TableIterator.next (it : TableIterator) : Option Nat × TableIterator :=
  if it.i < it.n then (some it.i, ⟨it.i + 1, it.n⟩) else (none, it)

/-- Driving the iterator to exhaustion, collecting every yielded row index. -/
def TableIterator.drain (it : TableIterator) : List Nat :=
  if _h : it.i < it.n then it.i :: TableIterator.drain ⟨it.i + 1, it.n⟩ else []
termination_by it.n - it.i

/-! ### Rule testers (`_generateRuleTester`)

Rules arrive over the wire as `{ field, operation, value }` with `operation`
an operation-name string and `value` a string or an array of strings (§6 of
the spec).  A column is either a ByteString column or a numeric column; the
switch in `_generateRuleTester` branches on `column.type === ByteString`.

A compiled rule tester is a `Nat → Option Bool`: given the row index it
either yields the predicate's boolean or `none` when the evaluation throws
(e.g. `containsCase` invoked on a number).  `_generateRuleTester` itself
returns `Except String (Option tester)`: `Except.error` when the compilation
throws (nonexistent column, `.map` on a non-array value), `.ok none` when the
switch falls through to `return null` (unknown operation), and `.ok (some f)`
for the ten defined operations. -/

/-- The ten filter operations (`FilterOperation.js`; `in` is a Lean keyword,
so that operation is named `isIn` here). -/
inductive FilterOperation
  | contains
  | notContains
  | isIn
  | notIn
  | equal
  | notEqual
  | greaterThan
  | greaterThanOrEqual
  | lessThan
  | lessThanOrEqual
deriving DecidableEq

/-- Modelled from the spec: the `FilterOperation` constant values
(`FilterOperation.js` is not part of the given sources).  §3 and §6 of the
spec give the closed set of operation names carried by `Rule.operation`; any
other string reaches the `default` branch of the switch in
`_generateRuleTester`. -/
def parseOperationName (s : String) : Option FilterOperation :=
  if s = "contains" then some .contains
  else if s = "notContains" then some .notContains
  else if s = "in" then some .isIn
  else if s = "notIn" then some .notIn
  else if s = "equal" then some .equal
  else if s = "notEqual" then some .notEqual
  else if s = "greaterThan" then some .greaterThan
  else if s = "greaterThanOrEqual" then some .greaterThanOrEqual
  else if s = "lessThan" then some .lessThan
  else if s = "lessThanOrEqual" then some .lessThanOrEqual
  else none

/-- A rule's `value` field: a single string, or an array of strings for
`in` / `notIn` (§6 wire form). -/
inductive RuleValue
  | scalar (s : String)
  | array (l : List String)
deriving DecidableEq

/-- A wire-form filter rule. -/
structure RuleModel where
  field : String
  operation : String
  value : RuleValue
deriving DecidableEq

/-- A source-table column as the rule compiler sees it: its kind (the
`column.type === ByteString` test) and its getter, reading the value of this
column at a given row index. -/
inductive ColumnModel
  | byteString (get : Nat → String)
  | numeric (get : Nat → Int)

/-- JavaScript coercion of a rule value to a single string
(`ByteString.fromString(rule.value)` / `parseFloat(rule.value)` on an array
value go through `Array.prototype.toString`, which joins with commas). -/
def scalarOf : RuleValue → String
  | .scalar s => s
  | .array l => String.intercalate "," l

/-- The numeric value of a list of decimal digits. -/
def digitsVal (l : List Char) : Nat :=
  l.foldl (fun n c => n * 10 + (c.toNat - Char.toNat (Char.ofNat 48))) 0

/-- Modelled from the spec: JavaScript `parseFloat` restricted to the decimal
integer strings the verified claims exercise (§6: "Numeric rules re-parse the
string via decimal → f64"; integer values of this size are exact in f64).
`none` models the `NaN` produced for a non-numeric string. -/
def jsParseFloat (s : String) : Option Int :=
  match s.data with
  | [] => none
  | c :: cs =>
    if c = Char.ofNat 45 then
      if !cs.isEmpty && cs.all (fun d => d.isDigit) then some (-(digitsVal cs : Int))
      else none
    else
      if (c :: cs).all (fun d => d.isDigit) then some ((digitsVal (c :: cs) : Int))
      else none

/-- JavaScript `===` between a (never-`NaN`) column number and a pre-parsed
comparand: `NaN === x` is `false` for every `x`. -/
def jsStrictEq (x : Int) : Option Int → Bool
  | some y => x = y
  | none => false

/-- JavaScript `!==` with a pre-parsed comparand: `NaN !== x` is `true`. -/
def jsStrictNeq (x : Int) : Option Int → Bool
  | some y => x ≠ y
  | none => true

/-- JavaScript `>` with a pre-parsed comparand; comparisons against `NaN` are
`false`. -/
def jsGt (x : Int) : Option Int → Bool
  | some y => y < x
  | none => false

/-- JavaScript `>=` with a pre-parsed comparand; comparisons against `NaN`
are `false`. -/
def jsGe (x : Int) : Option Int → Bool
  | some y => y ≤ x
  | none => false

/-- JavaScript `<` with a pre-parsed comparand; comparisons against `NaN` are
`false`. -/
def jsLt (x : Int) : Option Int → Bool
  | some y => x < y
  | none => false

/-- JavaScript `<=` with a pre-parsed comparand; comparisons against `NaN`
are `false`. -/
def jsLe (x : Int) : Option Int → Bool
  | some y => x ≤ y
  | none => false

/-- Modelled from the spec: `ByteString.equalsCase` (§3: "case-insensitive
ASCII-folded equality"; `ByteString.js` is not part of the given sources). -/
def equalsCase (a b : String) : Bool :=
  a.data.map Char.toLower == b.data.map Char.toLower

/-- Modelled from the spec: `ByteString.containsCase` (§3: "case-insensitive
substring search"). -/
def containsCase (a b : String) : Bool :=
  ((a.data.map Char.toLower).tails).any fun t => (b.data.map Char.toLower).isPrefixOf t

/-- The loop body of the compiled `filterIn` / `filterNotIn` closures: scans
the pre-built comparand array, returning at the first element on which `hit`
fires.  The first component is `found` (`filterIn` returns it as is,
`filterNotIn` returns its negation); the second counts how many comparands
were tested before the loop returned. -/
def filterInScan (hit : α → Bool) : List α → Bool × Nat
  | [] => (false, 0)
  | v :: vs => if hit v then (true, 1) else ((filterInScan hit vs).1, (filterInScan hit vs).2 + 1)

/-- `_generateRuleTester`, lines 217-349.  Compilation resolves the column and
getter (throwing on a nonexistent column), pre-converts the comparison value
(ByteString for text columns, parsed float for numeric columns, an array of
such values for `in` / `notIn`), and returns the per-row predicate; an
operation outside the defined ten falls through to `return null`, modelled as
`.ok none`.  A relational comparison on a ByteString column is modelled as
constantly `false` (its result depends on `ByteString` number-coercion, which
is outside the given sources; no verified claim exercises it, and it cannot
throw). -/
def generateRuleTester (cols : String → Option ColumnModel) (rule : RuleModel) :
    Except String (Option (Nat → Option Bool)) :=
  match cols rule.field with
  | none => .error "TypeError: cannot read accessors of undefined"
  | some col =>
    match parseOperationName rule.operation with
    | some .contains =>
      let value := scalarOf rule.value
      .ok (some fun r =>
        match col with
        | .byteString get => some (containsCase (get r) value)
        | .numeric _ => none)
    | some .notContains =>
      let value := scalarOf rule.value
      .ok (some fun r =>
        match col with
        | .byteString get => some (!containsCase (get r) value)
        | .numeric _ => none)
    | some .isIn =>
      match rule.value with
      | .scalar _ => .error "TypeError: rule.value.map is not a function"
      | .array l =>
        match col with
        | .byteString get =>
          .ok (some fun r => some (filterInScan (fun v => equalsCase (get r) v) l).1)
        | .numeric get =>
          let values := l.map jsParseFloat
          .ok (some fun r => some (filterInScan (jsStrictEq (get r)) values).1)
    | some .notIn =>
      match rule.value with
      | .scalar _ => .error "TypeError: rule.value.map is not a function"
      | .array l =>
        match col with
        | .byteString get =>
          .ok (some fun r => some (!(filterInScan (fun v => equalsCase (get r) v) l).1))
        | .numeric get =>
          let values := l.map jsParseFloat
          .ok (some fun r => some (!(filterInScan (jsStrictEq (get r)) values).1))
    | some .equal =>
      match col with
      | .byteString get =>
        let value := scalarOf rule.value
        .ok (some fun r => some (equalsCase (get r) value))
      | .numeric get =>
        let value := jsParseFloat (scalarOf rule.value)
        .ok (some fun r => some (jsStrictEq (get r) value))
    | some .notEqual =>
      match col with
      | .byteString get =>
        let value := scalarOf rule.value
        .ok (some fun r => some (!equalsCase (get r) value))
      | .numeric get =>
        let value := jsParseFloat (scalarOf rule.value)
        .ok (some fun r => some (jsStrictNeq (get r) value))
    | some .greaterThan =>
      let value := jsParseFloat (scalarOf rule.value)
      .ok (some fun r =>
        match col with
        | .byteString _ => some false
        | .numeric get => some (jsGt (get r) value))
    | some .greaterThanOrEqual =>
      let value := jsParseFloat (scalarOf rule.value)
      .ok (some fun r =>
        match col with
        | .byteString _ => some false
        | .numeric get => some (jsGe (get r) value))
    | some .lessThan =>
      let value := jsParseFloat (scalarOf rule.value)
      .ok (some fun r =>
        match col with
        | .byteString _ => some false
        | .numeric get => some (jsLt (get r) value))
    | some .lessThanOrEqual =>
      let value := jsParseFloat (scalarOf rule.value)
      .ok (some fun r =>
        match col with
        | .byteString _ => some false
        | .numeric get => some (jsLe (get r) value))
    | none => .ok none

/-! ### Compiling and evaluating whole expressions over rule testers -/

/-- Sequencing of compilation steps: the source pushes compiled testers into
an array one by one, so the first thrown compile error aborts compilation. -/
def exceptSeq : List (Except String α) → Except String (List α)
  | [] => .ok []
  | .error e :: _ => .error e
  | .ok a :: rest =>
    match exceptSeq rest with
    | .error e => .error e
    | .ok l => .ok (a :: l)

/-- The compiled-clause loop of `_generateClauseTester` in DNF mode, run at
row `r` over the compiled rule testers: `if (!testers[i]()) return false`.
Invoking a `null` tester (unknown operation) throws, as does a tester that
itself throws; both are `none`. -/
def evalClauseDNF (r : Nat) : List (Option (Nat → Option Bool)) → Option Bool
  | [] => some true
  | t :: ts =>
    match t with
    | none => none
    | some f =>
      match f r with
      | none => none
      | some b => if !b then some false else evalClauseDNF r ts

/-- The compiled-clause loop of `_generateClauseTester` in CNF mode, run at
row `r`: `if (testers[i]()) return true`. -/
def evalClauseCNF (r : Nat) : List (Option (Nat → Option Bool)) → Option Bool
  | [] => some false
  | t :: ts =>
    match t with
    | none => none
    | some f =>
      match f r with
      | none => none
      | some b => if b then some true else evalClauseCNF r ts

/-- The expression loop of `_generateExpressionTester` in DNF mode, run at
row `r` over the compiled clauses: `if (testers[i]()) return true`. -/
def evalExprDNF (r : Nat) : List (List (Option (Nat → Option Bool))) → Option Bool
  | [] => some false
  | c :: cs =>
    match evalClauseDNF r c with
    | none => none
    | some b => if b then some true else evalExprDNF r cs

/-- The expression loop of `_generateExpressionTester` in CNF mode, run at
row `r`: `if (!testers[i]()) return false`. -/
def evalExprCNF (r : Nat) : List (List (Option (Nat → Option Bool))) → Option Bool
  | [] => some true
  | c :: cs =>
    match evalClauseCNF r c with
    | none => none
    | some b => if !b then some false else evalExprCNF r cs

/-- Compilation of one clause: `_generateClauseTester` compiles each rule in
order (a thrown rule compile aborts; a `null` rule tester is pushed as is). -/
def compileClause (cols : String → Option ColumnModel) (clause : List RuleModel) :
    Except String (List (Option (Nat → Option Bool))) :=
  exceptSeq (clause.map (generateRuleTester cols))

/-- Compilation of a whole expression, `_generateExpressionTester`: an empty
expression compiles to `filterTesterEmpty` (constantly `true`); otherwise all
clauses are compiled and the mode-specific aggregation closure is returned. -/
def compileExpression (cols : String → Option ColumnModel) (mode : FilterExpressionMode)
    (expression : List (List RuleModel)) : Except String (Nat → Option Bool) :=
  if expression.isEmpty then .ok fun _ => some true
  else
    match exceptSeq (expression.map (compileClause cols)) with
    | .error e => .error e
    | .ok cs =>
      match mode with
      | .DNF => .ok fun r => evalExprDNF r cs
      | .CNF => .ok fun r => evalExprCNF r cs

/-! ### The batched scan loop (`FilterProcessor.process`)

A single worker drives the loop
`for (i = Atomize.add(indices, 0, batchSize); i < rowCount; i = Atomize.add(indices, 0, batchSize))`
with the shared cursor private to it, so each `Atomize.add` returns the
current cursor and advances it by `batchSize`.  The inner loop visits rows
`r = i .. min(i + batchSize, rowCount) - 1` in ascending order and records
`r` whenever the tester fires.  A tester throwing at some row (`none`) aborts
the whole scan (`none` overall); `batchPos` reflects the spec's
`rowBatchSize > 0` input requirement (§4.8), without which the source loop
never advances. -/

/-- The inner row loop over one claimed batch, `count` rows starting at `r`
(`count` is `min(i + batchSize, rowCount) - r` at entry). -/
def scanBatch (tester : Nat → Option Bool) : Nat → Nat → Option (List Nat)
  | _, 0 => some []
  | r, count + 1 =>
    match tester r with
    | none => none
    | some b =>
      match scanBatch tester (r + 1) count with
      | none => none
      | some rest => some (if b then r :: rest else rest)

/-- The outer batch-claiming loop of `process`, entered with the shared
cursor at `i`. -/
def scanLoop (rowCount batchSize : Nat) (batchPos : 0 < batchSize)
    (tester : Nat → Option Bool) (i : Nat) : Option (List Nat) :=
  if _h : i < rowCount then
    match scanBatch tester i (min (i + batchSize) rowCount - i) with
    | none => none
    | some batch =>
      match scanLoop rowCount batchSize batchPos tester (i + batchSize) with
      | none => none
      | some rest => some (batch ++ rest)
  else some []
termination_by rowCount - i
decreasing_by omega

/-! ### The result writer (`_generateResultWriter`) -/

/-- A value stored in a table cell: a number or the string content of a
ByteString column. -/
inductive JsValue
  | num (n : Int)
  | str (s : String)
deriving DecidableEq

/-- One entry of a result description: a source column name and the optional
`as` field naming the destination column (`none` when the property is
absent). -/
structure ResultEntry where
  column : String
  as : Option String
deriving DecidableEq

/-- JavaScript truthiness of the `as` property: absent (`undefined`) and the
empty string are falsy; every other string is truthy. -/
def jsTruthy : Option String → Bool
  | none => false
  | some s => !s.isEmpty

/-- A compiled field writer: `resultWriterField` captures the source and
destination column names whose getter and setter it closed over;
`resultWriterRowIndex` captures the setter of the empty-named column. -/
inductive FieldWriter
  | copyField (srcColumn dstColumn : String)
  | rowIndexWriter
deriving DecidableEq

/-- The compile loop of `_generateResultWriter`, lines 104-117: for each
description entry, a truthy `as` yields a `resultWriterField` copying
`column` to `as`, otherwise a `resultWriterRowIndex` writing the source row
index to the empty-named column.  The description is assumed schema-valid
(§4.7 invariant), so the accessor lookups the source performs at compile time
are modelled by the captured names. -/
def generateResultWriter (description : List ResultEntry) : List FieldWriter :=
  description.map fun e =>
    if jsTruthy e.as then .copyField e.column (e.as.getD "") else .rowIndexWriter

/-- The observable state of the result table: its row count and the ordered
log of cell writes `(row index, column name, value)` performed on it. -/
structure ResultTable where
  rowCount : Nat
  writes : List (Nat × String × JsValue)
deriving DecidableEq

/-- `Table.addRows(count)`: atomically grows the row count and returns the
prior value, so the caller owns rows `[old, old + count)`. -/
def ResultTable.addRows (t : ResultTable) (count : Nat) : Nat × ResultTable :=
  (t.rowCount, { t with rowCount := t.rowCount + count })

/-- One compiled field writer invoked with the result cursor at `rowIdx` and
the source row (a `column name → value` view of the live row) at source index
`srcIndex`. -/
def runFieldWriter (src : String → JsValue) (rowIdx srcIndex : Nat)
    (t : ResultTable) (w : FieldWriter) : ResultTable :=
  match w with
  | .copyField c d => { t with writes := t.writes ++ [(rowIdx, d, src c)] }
  | .rowIndexWriter => { t with writes := t.writes ++ [(rowIdx, "", .num srcIndex)] }

/-- The `resultWriter` closure, lines 121-126: on each call it claims a fresh
result row (`resultRow.index = resultTable.addRows(1)`) and then invokes each
field writer in order against that row. -/
def runResultWriter (writers : List FieldWriter) (t : ResultTable)
    (src : String → JsValue) (srcIndex : Nat) : ResultTable :=
  let claimed := t.addRows 1
  writers.foldl (runFieldWriter src claimed.1 srcIndex) claimed.2

/-! ### The worker protocol (`filterWorkerOnMessage`) -/

/-- The worker-side state behind a deserialized source table: its columns and
row count (`deserializeTable` reconstructs a `Table` view of shared memory
without copying, modelled as the table itself). -/
structure ProcessorModel where
  cols : String → Option ColumnModel
  rowCount : Nat

/-- The value of the source row at index `r` as the result writer's captured
getters see it (a claim-relevant description names only existing columns, so
the `none` fallback is never read). -/
def ProcessorModel.srcRow (p : ProcessorModel) (r : Nat) : String → JsValue :=
  fun c =>
    match p.cols c with
    | some (.byteString get) => .str (get r)
    | some (.numeric get) => .num (get r)
    | none => .num 0

/-- The options of a `processFilters` message.  `cursor` is the value the
shared `indices[0]` cell holds when the worker first claims a batch;
`batchPos` is the spec's `rowBatchSize > 0` input requirement (§4.8). -/
structure ProcessConfig where
  rules : List (List RuleModel)
  mode : FilterExpressionMode
  resultDescription : List ResultEntry
  resultTable : ResultTable
  cursor : Nat
  rowBatchSize : Nat
  batchPos : 0 < rowBatchSize

/-- `FilterProcessor.process`, lines 66-87, for a single worker: compile the
tester and the result writer, scan, and append every matching row to the
result table in visit order.  `none` models an exception thrown while
compiling or while testing a row, which propagates out of `process`. -/
def processRun (p : ProcessorModel) (cfg : ProcessConfig) : Option ResultTable :=
  match compileExpression p.cols cfg.mode cfg.rules with
  | .error _ => none
  | .ok tester =>
    match scanLoop p.rowCount cfg.rowBatchSize cfg.batchPos tester cfg.cursor with
    | none => none
    | some rows =>
      some (rows.foldl
        (fun t r => runResultWriter (generateResultWriter cfg.resultDescription) t (p.srcRow r) r)
        cfg.resultTable)

/-- An inbound worker message: `initialize`, `processFilters`, or any other
`type` string. -/
inductive InMessage
  | initMessage (table : ProcessorModel)
  | processFilters (cfg : ProcessConfig)
  | other (msgType : String)

/-- An outbound reply: `sendSuccess` or `sendError` with its reason. -/
inductive Reply
  | success
  | error (reason : String)
deriving DecidableEq

/-- `filterWorkerOnMessage`, lines 416-441 (production build): dispatches on
the message type against the module-level `gProcessor`.  The reply component
is `none` when no message is posted because `gProcessor.process` threw (the
handler has no catch, so the exception escapes and the processor stays
installed). -/
def filterWorkerOnMessage (st : Option ProcessorModel) (msg : InMessage) :
    Option ProcessorModel × Option Reply :=
  match msg with
  | .initMessage table =>
    match st with
    | some p => (some p, some (.error "ERROR: Worker is already initialized!"))
    | none => (some table, some .success)
  | .processFilters cfg =>
    match st with
    | some p =>
      (some p,
        match processRun p cfg with
        | some _ => some .success
        | none => none)
    | none => (none, some (.error "ERROR: Filter.worker has not been initialized"))
  | .other msgType =>
    (st, some (.error ("ERROR: Unrecognized message type \"" ++ msgType ++ "\"")))

/-- The source table of scenario S4: 1,000 rows whose numeric `id` column
holds `id = r` at row `r`. -/
def cols1000 : String → Option ColumnModel :=
  fun name => if name = "id" then some (.numeric fun r => (r : Int)) else none

/-- The S4 rule: `{field: "id", operation: "in", value: ["7","42","999","1000"]}`. -/
def rule1000 : RuleModel :=
  ⟨"id", "in", .array ["7", "42", "999", "1000"]⟩

/-- The comparand array the S4 rule compiles to: each listed string
pre-parsed by `parseFloat` at compile time. -/
def values1000 : List (Option Int) :=
  ["7", "42", "999", "1000"].map jsParseFloat

/-- The row test the compiled S4 tester performs: scan the pre-parsed
comparands for one strictly equal to the row's `id`. -/
def test1000 (r : Nat) : Bool :=
  (filterInScan (jsStrictEq (r : Int)) values1000).1

/-- The operations whose compiled tester calls a ByteString method on the
column value (`containsCase`), and therefore throws at row time on a numeric
column. -/
def opNeedsByteString : FilterOperation → Bool
  | .contains => true
  | .notContains => true
  | _ => false

/-- The operations whose compilation maps over `rule.value` and therefore
throws at compile time unless the value is an array. -/
def opNeedsArray : FilterOperation → Bool
  | .isIn => true
  | .notIn => true
  | _ => false

/-- Whether a column lookup produced a ByteString column. -/
def isByteStringCol : Option ColumnModel → Bool
  | some (.byteString _) => true
  | _ => false

/-- Whether a rule value is an array. -/
def isArrayValue : RuleValue → Bool
  | .array _ => true
  | .scalar _ => false

/-- A rule the compiler handles fully: its field names an existing column,
its operation is one of the ten defined ones, `contains` / `notContains`
target a ByteString column, and `in` / `notIn` carry an array value. -/
def ruleWellFormed (cols : String → Option ColumnModel) (rule : RuleModel) : Bool :=
  (cols rule.field).isSome &&
    match parseOperationName rule.operation with
    | none => false
    | some op =>
      (!opNeedsByteString op || isByteStringCol (cols rule.field))
        && (!opNeedsArray op || isArrayValue rule.value)

/-- A rule-compilation outcome that yields a tester and whose tester never
throws: `.ok (some f)` with `f` defined (`isSome`) at every row. -/
def testerTotal : Except String (Option (Nat → Option Bool)) → Prop
  | .ok (some f) => ∀ r, (f r).isSome = true
  | .ok none => False
  | .error _ => False

/-- A rule whose operation string is not among the ten defined operations. -/
def ruleUnknownOp : RuleModel :=
  ⟨"id", "frobnicate", .scalar "3"⟩

/-- A one-row table with the numeric `id` column, for exercising the
unknown-operation rule. -/
def tableOneRow : ProcessorModel :=
  ⟨cols1000, 1⟩

/-- A `processFilters` configuration carrying the unknown-operation rule. -/
def cfgUnknownOp : ProcessConfig :=
  ⟨[[ruleUnknownOp]], .DNF, [], ⟨0, []⟩, 0, 1, by omega⟩

/-- A zero-row table, for a trivially completing scan. -/
def tableEmptyRows : ProcessorModel :=
  ⟨fun _ => none, 0⟩

/-- A `processFilters` configuration with an empty expression and an empty
result description. -/
def cfgEmptyScan : ProcessConfig :=
  ⟨[], .DNF, [], ⟨0, []⟩, 0, 1, by omega⟩

/-! ## Theorems -/

/-- Unfolding `TableIterator.drain` from cursor `i` yields the ascending
index interval `[i, n)`. -/
theorem TableIterator.drain_eq (n : Nat) :
    ∀ i, TableIterator.drain ⟨i, n⟩ = List.range' i (n - i) := by
  have H : ∀ k i, n - i ≤ k → TableIterator.drain ⟨i, n⟩ = List.range' i (n - i) := by
    intro k
    induction k with
    | zero =>
      intro i hk
      have hi : ¬ i < n := by omega
      rw [TableIterator.drain]
      have hz : n - i = 0 := by omega
      simp [hi, hz]
    | succ k ih =>
      intro i hk
      by_cases hi : i < n
      · rw [TableIterator.drain]
        rw [ih (i + 1) (by omega)]
        have hs : n - i = (n - (i + 1)) + 1 := by omega
        simp [hi, hs, List.range'_succ]
      · rw [TableIterator.drain]
        have hz : n - i = 0 := by omega
        simp [hi, hz]
  exact fun i => H (n - i) i (Nat.le_refl _)

/-- C4: in debug builds, `Table.getRow(i)` (and identically `getBinaryRow`)
is claimed to raise the out-of-bounds error exactly when `i ≥ rowCount` and
to return a row positioned at `i` otherwise.  The source guard is
`if (!index >= this.rowCount)`, which compares the boolean `!index` (coerced
to `1` or `0`) against `rowCount`: on a table with `rowCount = 3`, the
out-of-bounds access `getRow 5` does not raise (it returns a row positioned
at the nonexistent index 5), and on a table with `rowCount = 1` the in-bounds
access `getRow 0` raises.  This evaluates the embedded code at both failing
inputs. -/
theorem getRow_bounds_check_bug :
    (getRow 3 5 = .ok 5 ∧ 3 ≤ 5)
      ∧ (getRow 1 0 = .error "ERROR: Index out of bounds!" ∧ 0 < 1) := by
  constructor
  · exact ⟨rfl, by omega⟩
  · exact ⟨rfl, by omega⟩

/-- C9: `Table.forEach(f)` invokes `f` at row index 0 unconditionally before
consulting `rowCount` — on an empty table the callback still runs exactly
once — while the `Symbol.iterator` protocol yields exactly `rowCount` row
indices, `0 .. rowCount-1` in ascending order (none on an empty table); on a
nonempty table both produce the same ascending index sequence, each through a
single reused `Row` cursor (modelled by the one index cell being advanced). -/
theorem forEach_vs_iterator (n : Nat) (f : Nat → α) :
    forEachRun 0 f = [f 0]
      ∧ (forEachRun n f).head? = some (f 0)
      ∧ forEachRun (n + 1) f = (List.range (n + 1)).map f
      ∧ TableIterator.drain ⟨0, n⟩ = List.range n
      ∧ TableIterator.drain ⟨0, 0⟩ = [] := by
  refine ⟨?_, ?_, ?_, ?_, ?_⟩
  · simp [forEachRun]
  · simp [forEachRun]
  · rw [forEachRun, List.range_eq_range']
    have h : (n + 1) - 1 = n := by omega
    rw [h]
    have h0 : List.range' 0 (n + 1) = 0 :: List.range' 1 n := by
      simp [List.range'_succ]
    rw [h0, List.map_cons]
  · rw [TableIterator.drain_eq, List.range_eq_range']
    simp
  · rw [TableIterator.drain_eq]
    simp

/-- The field-writer fold grows the write log by one record per writer, in
writer order, against the row index it was invoked with, and leaves the row
count as the fold found it. -/
theorem foldl_runFieldWriter (src : String → JsValue) (k r : Nat) :
    ∀ (ws : List FieldWriter) (t : ResultTable),
      ws.foldl (runFieldWriter src k r) t
        = { t with writes := t.writes ++ ws.map fun w =>
              match w with
              | .copyField c d => (k, d, src c)
              | .rowIndexWriter => (k, "", JsValue.num r) } := by
  intro ws
  induction ws with
  | nil => intro t; simp
  | cons w ws ih =>
    intro t
    rw [List.foldl_cons, ih]
    cases w <;> simp [runFieldWriter]

/-- C3 (amended): the compiled result writer, invoked for a matching source
row `r`, first claims a fresh result row via `resultTable.addRows(1)` and
positions the result cursor there (the new row's index is the old row count),
then for each description entry in order appends one cell write to that row:
the value of source column `column` into result column `as` when `as` is
present and truthy (a nonempty string), and the source row index `r` into the
empty-named column when `as` is absent or falsy. -/
theorem resultWriter_spec (desc : List ResultEntry) (t : ResultTable)
    (src : String → JsValue) (r : Nat) :
    (runResultWriter (generateResultWriter desc) t src r).rowCount = t.rowCount + 1
      ∧ (runResultWriter (generateResultWriter desc) t src r).writes
          = t.writes ++ desc.map fun e =>
              if jsTruthy e.as then (t.rowCount, e.as.getD "", src e.column)
              else (t.rowCount, "", JsValue.num r) := by
  rw [runResultWriter]
  rw [foldl_runFieldWriter]
  constructor
  · rfl
  · show t.writes ++ (generateResultWriter desc).map _ = _
    rw [generateResultWriter, List.map_map]
    congr 1
    apply List.map_congr_left
    intro e _
    by_cases h : jsTruthy e.as = true <;> simp [h, Function.comp, ResultTable.addRows]

/-- C3 counterexample: a description entry whose `as` field is present but
equal to the empty string.  The claim says a present `as` copies the source
column (here constantly `99`) into the result column named by `as`; the
compiled writer instead writes the source row index `5` into the empty-named
column. -/
theorem resultWriter_present_empty_as_counterexample :
    (runResultWriter (generateResultWriter [⟨"c", some ""⟩]) ⟨0, []⟩
        (fun _ => JsValue.num 99) 5).writes
      = [(0, "", JsValue.num 5)]
      ∧ JsValue.num 5 ≠ JsValue.num 99 := by
  constructor
  · rfl
  · decide

/-- C10: a result description entry whose `as` field is present but equal to
the empty string (the only falsy string) compiles to exactly the same field
writer as an entry with `as` absent — the row-index writer — so the compiled
writer stores the source row index into the empty-named result column instead
of copying the named source column. -/
theorem resultWriter_falsy_as (col : String) (t : ResultTable)
    (src : String → JsValue) (r : Nat) :
    generateResultWriter [⟨col, some ""⟩] = generateResultWriter [⟨col, none⟩]
      ∧ generateResultWriter [⟨col, some ""⟩] = [.rowIndexWriter]
      ∧ runResultWriter (generateResultWriter [⟨col, some ""⟩]) t src r
          = runResultWriter (generateResultWriter [⟨col, none⟩]) t src r
      ∧ (runResultWriter (generateResultWriter [⟨col, some ""⟩]) t src r).writes
          = t.writes ++ [(t.rowCount, "", JsValue.num r)] := by
  refine ⟨rfl, rfl, rfl, ?_⟩
  rw [runResultWriter, foldl_runFieldWriter]
  simp [generateResultWriter, jsTruthy, ResultTable.addRows, String.isEmpty]

/-- The DNF clause loop returns the conjunction of its rule testers. -/
theorem ruleTesterDNF_fst : ∀ c : List Bool, (ruleTesterDNF c).1 = c.all id := by
  intro c
  induction c with
  | nil => rfl
  | cons b bs ih => cases b <;> simp [ruleTesterDNF, ih]

/-- The CNF clause loop returns the disjunction of its rule testers. -/
theorem ruleTesterCNF_fst : ∀ c : List Bool, (ruleTesterCNF c).1 = c.any id := by
  intro c
  induction c with
  | nil => rfl
  | cons b bs ih => cases b <;> simp [ruleTesterCNF, ih]

/-- The DNF clause loop stops at the first `false` rule tester: it invokes
one more tester than the index of the first `false`, or all of them when
every tester is `true`. -/
theorem ruleTesterDNF_snd : ∀ c : List Bool,
    (ruleTesterDNF c).2 = min (c.findIdx (fun b => !b) + 1) c.length := by
  intro c
  induction c with
  | nil => simp [ruleTesterDNF]
  | cons b bs ih =>
    cases b
    · simp [ruleTesterDNF, List.findIdx_cons]
    · simp [ruleTesterDNF, List.findIdx_cons, ih]
      omega

/-- The CNF clause loop stops at the first `true` rule tester. -/
theorem ruleTesterCNF_snd : ∀ c : List Bool,
    (ruleTesterCNF c).2 = min (c.findIdx (fun b => b) + 1) c.length := by
  intro c
  induction c with
  | nil => simp [ruleTesterCNF]
  | cons b bs ih =>
    cases b
    · simp [ruleTesterCNF, List.findIdx_cons, ih]
      omega
    · simp [ruleTesterCNF, List.findIdx_cons]

/-- The DNF expression loop returns: some clause has all of its rules true. -/
theorem filterTesterDNF_fst : ∀ cs : List (List Bool),
    (filterTesterDNF cs).1 = cs.any fun c => c.all id := by
  intro cs
  induction cs with
  | nil => rfl
  | cons c cs ih =>
    by_cases h : (ruleTesterDNF c).1 = true
    · have hall : c.all id = true := by rw [← ruleTesterDNF_fst]; exact h
      simp [filterTesterDNF, h, hall]
    · have hall : c.all id = false := by
        rw [← ruleTesterDNF_fst]; exact Bool.eq_false_iff.mpr h
      simp [filterTesterDNF, h, hall, ih]

/-- The CNF expression loop returns: every clause has some rule true. -/
theorem filterTesterCNF_fst : ∀ cs : List (List Bool),
    (filterTesterCNF cs).1 = cs.all fun c => c.any id := by
  intro cs
  induction cs with
  | nil => rfl
  | cons c cs ih =>
    by_cases h : (ruleTesterCNF c).1 = true
    · have hany : c.any id = true := by rw [← ruleTesterCNF_fst]; exact h
      simp [filterTesterCNF, h, hany, ih]
    · have hany : c.any id = false := by
        rw [← ruleTesterCNF_fst]; exact Bool.eq_false_iff.mpr h
      simp [filterTesterCNF, h, hany]

/-- The DNF expression loop stops at the first clause whose clause tester
fires. -/
theorem filterTesterDNF_snd : ∀ cs : List (List Bool),
    (filterTesterDNF cs).2
      = min (cs.findIdx (fun c => (ruleTesterDNF c).1) + 1) cs.length := by
  intro cs
  induction cs with
  | nil => simp [filterTesterDNF]
  | cons c cs ih =>
    by_cases h : (ruleTesterDNF c).1 = true
    · simp [filterTesterDNF, h, List.findIdx_cons]
    · simp [filterTesterDNF, h, List.findIdx_cons, ih]
      omega

/-- The CNF expression loop stops at the first clause whose clause tester
fails. -/
theorem filterTesterCNF_snd : ∀ cs : List (List Bool),
    (filterTesterCNF cs).2
      = min (cs.findIdx (fun c => !(ruleTesterCNF c).1) + 1) cs.length := by
  intro cs
  induction cs with
  | nil => simp [filterTesterCNF]
  | cons c cs ih =>
    by_cases h : (ruleTesterCNF c).1 = true
    · simp [filterTesterCNF, h, List.findIdx_cons, ih]
      omega
    · have h' : (ruleTesterCNF c).1 = false := Bool.eq_false_iff.mpr h
      simp [filterTesterCNF, h', List.findIdx_cons]

/-- C1 (amended): for every nonempty filter expression (rule testers
abstracted to their boolean value at the row under test), the compiled tester
implements the standard normal-form semantics — in DNF mode it matches iff
some clause has all of its rules true, in CNF mode iff every clause has at
least one rule true — and both aggregation loops short-circuit: the
expression loop invokes clause testers only up to the first deciding clause,
the clause loop invokes rule testers only up to the first deciding rule.  The
empty expression is special-cased to `true` (see C8), which for DNF departs
from the standard empty-disjunction semantics, so the equivalence holds for
nonempty expressions. -/
theorem expressionTester_normal_form (E : List (List Bool)) (c : List Bool)
    (hE : E ≠ []) :
    (generateExpressionTester .DNF (some E) = E.any fun cl => cl.all id)
      ∧ (generateExpressionTester .CNF (some E) = E.all fun cl => cl.any id)
      ∧ (expressionTesterRun .DNF E).2
          = min (E.findIdx (fun cl => (ruleTesterDNF cl).1) + 1) E.length
      ∧ (expressionTesterRun .CNF E).2
          = min (E.findIdx (fun cl => !(ruleTesterCNF cl).1) + 1) E.length
      ∧ (generateClauseTester .DNF c).1 = c.all id
      ∧ (generateClauseTester .CNF c).1 = c.any id
      ∧ (generateClauseTester .DNF c).2 = min (c.findIdx (fun b => !b) + 1) c.length
      ∧ (generateClauseTester .CNF c).2 = min (c.findIdx (fun b => b) + 1) c.length := by
  have hne : E.isEmpty = false := by
    cases E with
    | nil => exact absurd rfl hE
    | cons a l => rfl
  refine ⟨?_, ?_, ?_, ?_, ?_, ?_, ?_, ?_⟩
  · rw [generateExpressionTester]
    simp only [hne, if_false, Bool.false_eq_true]
    exact filterTesterDNF_fst E
  · rw [generateExpressionTester]
    simp only [hne, if_false, Bool.false_eq_true]
    exact filterTesterCNF_fst E
  · exact filterTesterDNF_snd E
  · exact filterTesterCNF_snd E
  · exact ruleTesterDNF_fst c
  · exact ruleTesterCNF_fst c
  · exact ruleTesterDNF_snd c
  · exact ruleTesterCNF_snd c

/-- C1 counterexample: the empty expression in DNF mode.  The compiled tester
returns `true` (the `filterTesterEmpty` special case), but no clause of the
empty expression has all of its rules true — the standard DNF semantics of an
empty disjunction is `false` — so the claimed equivalence fails for the empty
expression. -/
theorem expressionTester_empty_dnf_counterexample :
    generateExpressionTester .DNF (some []) = true
      ∧ (([] : List (List Bool)).any fun cl => cl.all id) = false := by
  exact ⟨rfl, rfl⟩

/-- Witness for C1: instantiating the amended theorem at the nonempty
expression `[[true]]`. -/
theorem expressionTester_normal_form_witness :
    ([[true]] : List (List Bool)) ≠ []
      ∧ generateExpressionTester .DNF (some [[true]])
          = ([[true]] : List (List Bool)).any fun cl => cl.all id := by
  exact ⟨by decide, (expressionTester_normal_form [[true]] [] (by decide)).1⟩

/-- The inner batch loop with a non-throwing tester visits `count` rows from
`r` upward and keeps exactly those the test accepts, in ascending order. -/
theorem scanBatch_pure (tester : Nat → Option Bool) (test : Nat → Bool)
    (ht : ∀ r, tester r = some (test r)) :
    ∀ count r, scanBatch tester r count = some ((List.range' r count).filter test) := by
  intro count
  induction count with
  | zero => intro r; simp [scanBatch]
  | succ k ih =>
    intro r
    rw [scanBatch, ht r, ih (r + 1)]
    rw [List.range'_succ, List.filter_cons]

/-- The outer loop of `process` with a non-throwing tester, entered with the
cursor at `i`, writes exactly the accepted rows of `[i, rowCount)` in
ascending order — independently of the batch size. -/
theorem scanLoop_pure (rowCount b : Nat) (hb : 0 < b) (tester : Nat → Option Bool)
    (test : Nat → Bool) (ht : ∀ r, tester r = some (test r)) :
    ∀ i, scanLoop rowCount b hb tester i
      = some ((List.range' i (rowCount - i)).filter test) := by
  have H : ∀ k i, rowCount - i ≤ k →
      scanLoop rowCount b hb tester i
        = some ((List.range' i (rowCount - i)).filter test) := by
    intro k
    induction k with
    | zero =>
      intro i hk
      have hi : ¬ i < rowCount := by omega
      rw [scanLoop]
      have hz : rowCount - i = 0 := by omega
      simp [hi, hz]
    | succ k ih =>
      intro i hk
      by_cases hi : i < rowCount
      · rw [scanLoop]
        rw [scanBatch_pure tester test ht, ih (i + b) (by omega)]
        simp only [hi, dif_pos]
        rw [← List.filter_append]
        congr 2
        by_cases hib : i + b ≤ rowCount
        · have h1 : min (i + b) rowCount - i = b := by omega
          have h2 : rowCount - i = (rowCount - (i + b)) + b := by omega
          rw [h1, h2]
          have happ := List.range'_append_1 i b (rowCount - (i + b))
          rw [happ, Nat.add_comm]
        · have h0 : rowCount - (i + b) = 0 := by omega
          have h1 : min (i + b) rowCount - i = rowCount - i := by omega
          simp [h0, h1]
      · rw [scanLoop]
        have hz : rowCount - i = 0 := by omega
        simp [hi, hz]
  exact fun i => H (rowCount - i) i (Nat.le_refl _)

/-- C2: for a single worker whose shared cursor starts at 0, for every table
(characterised by its `rowCount`), every test predicate and every
`rowBatchSize > 0`, the scan loop writes exactly the rows `r ∈ [0, rowCount)`
accepted by the test — each exactly once (the written list has no
duplicates), in globally ascending order (hence ascending within every
claimed batch).  The written list `(List.range rowCount).filter test` does
not depend on the chosen batch size, so the multiset of written rows is batch
size independent; and the loop exits immediately whenever a claim starts at
or beyond `rowCount`. -/
theorem process_scan_spec (rowCount b : Nat) (hb : 0 < b) (test : Nat → Bool) :
    scanLoop rowCount b hb (fun r => some (test r)) 0
        = some ((List.range rowCount).filter test)
      ∧ ((List.range rowCount).filter test).Nodup
      ∧ (∀ r, r ∈ (List.range rowCount).filter test ↔ r < rowCount ∧ test r = true)
      ∧ List.Pairwise (· < ·) ((List.range rowCount).filter test)
      ∧ (∀ b2 : Nat, ∀ hb2 : 0 < b2,
          scanLoop rowCount b2 hb2 (fun r => some (test r)) 0
            = scanLoop rowCount b hb (fun r => some (test r)) 0)
      ∧ (∀ i, rowCount ≤ i →
          scanLoop rowCount b hb (fun r => some (test r)) i = some []) := by
  have hrange : ∀ b2 : Nat, ∀ hb2 : 0 < b2,
      scanLoop rowCount b2 hb2 (fun r => some (test r)) 0
        = some ((List.range rowCount).filter test) := by
    intro b2 hb2
    rw [scanLoop_pure rowCount b2 hb2 _ test (fun _ => rfl) 0, List.range_eq_range']
    simp
  have hpair : List.Pairwise (· < ·) ((List.range rowCount).filter test) :=
    List.Pairwise.filter _ (List.pairwise_lt_range rowCount)
  refine ⟨hrange b hb, ?_, ?_, hpair, ?_, ?_⟩
  · exact hpair.nodup
  · intro r
    simp [List.mem_filter, List.mem_range, and_comm]
  · intro b2 hb2
    rw [hrange b2 hb2, hrange b hb]
  · intro i hi
    rw [scanLoop_pure rowCount b hb _ test (fun _ => rfl) i]
    have hz : rowCount - i = 0 := by omega
    simp [hz]

/-- Witness for C2: the scan with `rowCount = 5`, batch size 2 and the
is-even test writes exactly the accepted rows of `[0, 5)`. -/
theorem process_scan_spec_witness :
    0 < 2
      ∧ scanLoop 5 2 (by omega) (fun r => some (r % 2 == 0)) 0
          = some ((List.range 5).filter fun r => r % 2 == 0) := by
  exact ⟨by omega, (process_scan_spec 5 2 (by omega) fun r => r % 2 == 0).1⟩

/-- C8: the tester compiled from an empty filter expression — no clauses, or
an absent clause list — is `filterTesterEmpty`, which returns `true` for
every row in either mode; consequently a scan under the empty expression
selects every row of the table. -/
theorem emptyExpression_matches_all (mode : FilterExpressionMode)
    (cols : String → Option ColumnModel) (rowCount b : Nat) (hb : 0 < b) :
    generateExpressionTester mode none = true
      ∧ generateExpressionTester mode (some []) = true
      ∧ compileExpression cols mode [] = .ok (fun _ => some true)
      ∧ (compileExpression cols mode []).map (fun f => scanLoop rowCount b hb f 0)
          = .ok (some (List.range rowCount)) := by
  have hcompile : compileExpression cols mode [] = .ok (fun _ => some true) := rfl
  refine ⟨?_, ?_, hcompile, ?_⟩
  · cases mode <;> rfl
  · cases mode <;> rfl
  · rw [hcompile, Except.map]
    rw [scanLoop_pure rowCount b hb _ (fun _ => true) (fun _ => rfl) 0]
    rw [List.range_eq_range']
    simp

/-- Witness for C8: the empty expression at a concrete mode, table and batch
size. -/
theorem emptyExpression_matches_all_witness :
    0 < 1
      ∧ (compileExpression (fun _ => none) .DNF []).map
            (fun f => scanLoop 3 1 (by omega) f 0)
          = .ok (some (List.range 3)) := by
  exact ⟨by omega,
    (emptyExpression_matches_all .DNF (fun _ => none) 3 1 (by omega)).2.2.2⟩

/-- The `filterIn` loop returns whether some comparand fires the hit test. -/
theorem filterInScan_fst (hit : α → Bool) :
    ∀ vs : List α, (filterInScan hit vs).1 = vs.any hit := by
  intro vs
  induction vs with
  | nil => rfl
  | cons v vs ih => by_cases h : hit v <;> simp [filterInScan, h, ih]

/-- The `filterIn` loop short-circuits: it tests one comparand past the first
hit, or all of them when nothing hits. -/
theorem filterInScan_snd (hit : α → Bool) :
    ∀ vs : List α, (filterInScan hit vs).2 = min (vs.findIdx hit + 1) vs.length := by
  intro vs
  induction vs with
  | nil => simp [filterInScan]
  | cons v vs ih =>
    by_cases h : hit v
    · simp [filterInScan, h, List.findIdx_cons]
    · simp [filterInScan, h, List.findIdx_cons, ih]
      omega

set_option maxRecDepth 8192 in
/-- C7: against the 1,000-row table with `id = 0..999`, the scan compiled
from the DNF expression `[[rule1000]]` writes exactly the rows `7, 42, 999`
(for every positive batch size); the comparison values are pre-parsed to
floats at compile time (`values1000`); and the `in` predicate returns the
disjunction of strict equalities, testing comparands only up to the first
equal one (short-circuit) and returning `false` when no listed value equals
the field. -/
theorem inScan_spec (b : Nat) (hb : 0 < b) :
    (compileExpression cols1000 .DNF [[rule1000]]).map (fun f => scanLoop 1000 b hb f 0)
        = .ok (some [7, 42, 999])
      ∧ values1000 = [some 7, some 42, some 999, some 1000]
      ∧ (∀ x : Int, ∀ vs : List (Option Int),
          (filterInScan (jsStrictEq x) vs).1 = vs.any (jsStrictEq x))
      ∧ (∀ x : Int, ∀ vs : List (Option Int),
          (filterInScan (jsStrictEq x) vs).2
            = min (vs.findIdx (jsStrictEq x) + 1) vs.length) := by
  refine ⟨?_, by decide, fun x vs => filterInScan_fst _ vs, fun x vs => filterInScan_snd _ vs⟩
  have hcomp : compileExpression cols1000 .DNF [[rule1000]]
      = .ok (fun r => evalExprDNF r [[some fun r2 => some (test1000 r2)]]) := rfl
  rw [hcomp]
  simp only [Except.map]
  have ht : ∀ r, (fun r => evalExprDNF r [[some fun r2 => some (test1000 r2)]]) r
      = some (test1000 r) := by
    intro r
    cases h : test1000 r <;> simp [evalExprDNF, evalClauseDNF, h]
  rw [scanLoop_pure 1000 b hb _ test1000 ht 0]
  have hfilter : (List.range' 0 (1000 - 0)).filter test1000 = [7, 42, 999] := by decide
  rw [hfilter]

/-- Witness for C7: the S4 scan at batch size 128. -/
theorem inScan_spec_witness :
    0 < 128
      ∧ (compileExpression cols1000 .DNF [[rule1000]]).map
            (fun f => scanLoop 1000 128 (by omega) f 0)
          = .ok (some [7, 42, 999]) := by
  exact ⟨by omega, (inScan_spec 128 (by omega)).1⟩

/-- A well-formed rule compiles to a non-null tester that never throws at any
row. -/
theorem generateRuleTester_total (cols : String → Option ColumnModel) (rule : RuleModel)
    (h : ruleWellFormed cols rule = true) :
    testerTotal (generateRuleTester cols rule) := by
  rw [ruleWellFormed, Bool.and_eq_true] at h
  obtain ⟨h1, h2⟩ := h
  cases hcol : cols rule.field with
  | none => rw [hcol] at h1; simp at h1
  | some col =>
    cases hop : parseOperationName rule.operation with
    | none => rw [hop] at h2; simp at h2
    | some op =>
      rw [hop, Bool.and_eq_true] at h2
      obtain ⟨hbs, harr⟩ := h2
      rw [hcol] at hbs
      cases op with
      | contains =>
        cases col with
        | byteString get => simp [generateRuleTester, hcol, hop, testerTotal]
        | numeric get => simp [opNeedsByteString, isByteStringCol] at hbs
      | notContains =>
        cases col with
        | byteString get => simp [generateRuleTester, hcol, hop, testerTotal]
        | numeric get => simp [opNeedsByteString, isByteStringCol] at hbs
      | isIn =>
        cases hval : rule.value with
        | scalar v => rw [hval] at harr; simp [opNeedsArray, isArrayValue] at harr
        | array l =>
          cases col with
          | byteString get => simp [generateRuleTester, hcol, hop, hval, testerTotal]
          | numeric get => simp [generateRuleTester, hcol, hop, hval, testerTotal]
      | notIn =>
        cases hval : rule.value with
        | scalar v => rw [hval] at harr; simp [opNeedsArray, isArrayValue] at harr
        | array l =>
          cases col with
          | byteString get => simp [generateRuleTester, hcol, hop, hval, testerTotal]
          | numeric get => simp [generateRuleTester, hcol, hop, hval, testerTotal]
      | equal =>
        cases col with
        | byteString get => simp [generateRuleTester, hcol, hop, testerTotal]
        | numeric get => simp [generateRuleTester, hcol, hop, testerTotal]
      | notEqual =>
        cases col with
        | byteString get => simp [generateRuleTester, hcol, hop, testerTotal]
        | numeric get => simp [generateRuleTester, hcol, hop, testerTotal]
      | greaterThan =>
        cases col with
        | byteString get => simp [generateRuleTester, hcol, hop, testerTotal]
        | numeric get => simp [generateRuleTester, hcol, hop, testerTotal]
      | greaterThanOrEqual =>
        cases col with
        | byteString get => simp [generateRuleTester, hcol, hop, testerTotal]
        | numeric get => simp [generateRuleTester, hcol, hop, testerTotal]
      | lessThan =>
        cases col with
        | byteString get => simp [generateRuleTester, hcol, hop, testerTotal]
        | numeric get => simp [generateRuleTester, hcol, hop, testerTotal]
      | lessThanOrEqual =>
        cases col with
        | byteString get => simp [generateRuleTester, hcol, hop, testerTotal]
        | numeric get => simp [generateRuleTester, hcol, hop, testerTotal]

/-- Unpacking `testerTotal`. -/
theorem testerTotal_elim (x : Except String (Option (Nat → Option Bool)))
    (h : testerTotal x) :
    ∃ f, x = .ok (some f) ∧ ∀ r, (f r).isSome = true := by
  match x with
  | .ok (some f) => exact ⟨f, rfl, h⟩
  | .ok none => exact h.elim
  | .error e => exact h.elim

/-- `exceptSeq` over a list of `.ok` values satisfying `P` yields `.ok` of a
list of values satisfying `P`. -/
theorem exceptSeq_ok {α : Type} (P : α → Prop) :
    ∀ l : List (Except String α), (∀ x ∈ l, ∃ a, x = .ok a ∧ P a) →
      ∃ l2, exceptSeq l = .ok l2 ∧ ∀ a ∈ l2, P a := by
  intro l
  induction l with
  | nil => intro _; exact ⟨[], rfl, by simp⟩
  | cons x xs ih =>
    intro h
    obtain ⟨a, rfl, ha⟩ := h x (by simp)
    obtain ⟨l2, hseq, hl2⟩ := ih fun y hy => h y (by simp [hy])
    refine ⟨a :: l2, ?_, ?_⟩
    · rw [exceptSeq, hseq]
    · intro b hb
      rcases List.mem_cons.mp hb with hb | hb
      · exact hb ▸ ha
      · exact hl2 b hb

/-- The DNF clause loop never throws over all-defined, non-null testers. -/
theorem evalClauseDNF_total (r : Nat) :
    ∀ ts : List (Option (Nat → Option Bool)),
      (∀ t ∈ ts, ∃ f, t = some f ∧ ∀ r2, (f r2).isSome = true) →
      (evalClauseDNF r ts).isSome = true := by
  intro ts
  induction ts with
  | nil => intro _; rfl
  | cons t ts ih =>
    intro h
    obtain ⟨f, rfl, hf⟩ := h t (by simp)
    have hfr := hf r
    cases hr : f r with
    | none => rw [hr] at hfr; simp at hfr
    | some b =>
      cases b with
      | false => simp [evalClauseDNF, hr]
      | true =>
        have hrest := ih fun t2 ht2 => h t2 (by simp [ht2])
        simp [evalClauseDNF, hr, hrest]

/-- The CNF clause loop never throws over all-defined, non-null testers. -/
theorem evalClauseCNF_total (r : Nat) :
    ∀ ts : List (Option (Nat → Option Bool)),
      (∀ t ∈ ts, ∃ f, t = some f ∧ ∀ r2, (f r2).isSome = true) →
      (evalClauseCNF r ts).isSome = true := by
  intro ts
  induction ts with
  | nil => intro _; rfl
  | cons t ts ih =>
    intro h
    obtain ⟨f, rfl, hf⟩ := h t (by simp)
    have hfr := hf r
    cases hr : f r with
    | none => rw [hr] at hfr; simp at hfr
    | some b =>
      cases b with
      | true => simp [evalClauseCNF, hr]
      | false =>
        have hrest := ih fun t2 ht2 => h t2 (by simp [ht2])
        simp [evalClauseCNF, hr, hrest]

/-- The DNF expression loop never throws over non-throwing clause loops. -/
theorem evalExprDNF_total (r : Nat) :
    ∀ cs : List (List (Option (Nat → Option Bool))),
      (∀ c ∈ cs, (evalClauseDNF r c).isSome = true) →
      (evalExprDNF r cs).isSome = true := by
  intro cs
  induction cs with
  | nil => intro _; rfl
  | cons c cs ih =>
    intro h
    have hc := h c (by simp)
    cases hr : evalClauseDNF r c with
    | none => rw [hr] at hc; simp at hc
    | some b =>
      cases b with
      | true => simp [evalExprDNF, hr]
      | false =>
        have hrest := ih fun c2 hc2 => h c2 (by simp [hc2])
        simp [evalExprDNF, hr, hrest]

/-- The CNF expression loop never throws over non-throwing clause loops. -/
theorem evalExprCNF_total (r : Nat) :
    ∀ cs : List (List (Option (Nat → Option Bool))),
      (∀ c ∈ cs, (evalClauseCNF r c).isSome = true) →
      (evalExprCNF r cs).isSome = true := by
  intro cs
  induction cs with
  | nil => intro _; rfl
  | cons c cs ih =>
    intro h
    have hc := h c (by simp)
    cases hr : evalClauseCNF r c with
    | none => rw [hr] at hc; simp at hc
    | some b =>
      cases b with
      | false => simp [evalExprCNF, hr]
      | true =>
        have hrest := ih fun c2 hc2 => h c2 (by simp [hc2])
        simp [evalExprCNF, hr, hrest]

/-- C5 (amended): a rule whose operation is not one of the ten defined
operations is not rejected at compile time — `_generateRuleTester` returns
`null` (`.ok none`) and the compilation of the enclosing expression completes
without an error — while a tester compiled from rules that are all
well-formed (defined operation, existing column, ByteString column for
`contains` / `notContains`, array value for `in` / `notIn`) never throws when
evaluated at any row.  (The error for an unknown operation instead surfaces
at row time, when a clause loop invokes the `null` tester: see the
counterexample.) -/
theorem unknownOperation_compiles_to_null (cols : String → Option ColumnModel)
    (rule : RuleModel) (mode : FilterExpressionMode) (expr : List (List RuleModel)) (r : Nat)
    (hfield : (cols rule.field).isSome = true)
    (hop : parseOperationName rule.operation = none)
    (hwf : expr.all (fun cl => cl.all (ruleWellFormed cols)) = true) :
    generateRuleTester cols rule = .ok none
      ∧ (compileExpression cols mode expr).map (fun f => (f r).isSome) = .ok true := by
  constructor
  · obtain ⟨col, hcol⟩ := Option.isSome_iff_exists.mp hfield
    simp [generateRuleTester, hcol, hop]
  · by_cases hemp : expr.isEmpty
    · simp [compileExpression, hemp, Except.map]
    · have hemp2 : expr.isEmpty = false := Bool.eq_false_iff.mpr hemp
      have htotal : ∀ x ∈ expr.map (compileClause cols),
          ∃ ts, x = .ok ts ∧
            ∀ t ∈ ts, ∃ f, t = some f ∧ ∀ r2, (f r2).isSome = true := by
        intro x hx
        obtain ⟨c, hc, rfl⟩ := List.mem_map.mp hx
        have hrules : ∀ y ∈ c.map (generateRuleTester cols),
            ∃ t, y = .ok t ∧ ∃ f, t = some f ∧ ∀ r2, (f r2).isSome = true := by
          intro y hy
          obtain ⟨rule2, hrule2, rfl⟩ := List.mem_map.mp hy
          have hwfc := (List.all_eq_true.mp hwf) c hc
          have hwfr := (List.all_eq_true.mp hwfc) rule2 hrule2
          obtain ⟨f, hf, hft⟩ :=
            testerTotal_elim _ (generateRuleTester_total cols rule2 hwfr)
          exact ⟨some f, hf, f, rfl, hft⟩
        obtain ⟨ts, hts, htot⟩ :=
          exceptSeq_ok (fun t => ∃ f, t = some f ∧ ∀ r2, (f r2).isSome = true)
            (c.map (generateRuleTester cols)) hrules
        exact ⟨ts, by rw [compileClause, hts], htot⟩
      obtain ⟨cls, hseq, hcls⟩ :=
        exceptSeq_ok
          (fun ts => ∀ t ∈ ts, ∃ f, t = some f ∧ ∀ r2, (f r2).isSome = true)
          (expr.map (compileClause cols)) htotal
      rw [compileExpression]
      simp only [hemp2, Bool.false_eq_true, if_false]
      rw [hseq]
      cases mode with
      | DNF =>
        simp only [Except.map]
        have := evalExprDNF_total r cls fun c hc => evalClauseDNF_total r c (hcls c hc)
        rw [show (evalExprDNF r cls).isSome = true from this]
      | CNF =>
        simp only [Except.map]
        have := evalExprCNF_total r cls fun c hc => evalClauseCNF_total r c (hcls c hc)
        rw [show (evalExprCNF r cls).isSome = true from this]

/-- C5 counterexample: the unknown-operation rule `ruleUnknownOp`
(`operation: "frobnicate"`) against the numeric `id` table.  Compilation
completes without any error — the rule compiles to a `null` tester — but
evaluating the compiled expression tester at row 0 throws (`none`), and the
worker posts no `error` reply: `filterWorkerOnMessage` on `processFilters`
lets the exception escape (reply component `none`), leaving the processor
installed.  This refutes both detection at compile time and the impossibility
of row-level errors after a successful compile. -/
theorem unknownOperation_counterexample :
    generateRuleTester cols1000 ruleUnknownOp = .ok none
      ∧ (compileExpression cols1000 .DNF [[ruleUnknownOp]]).map (fun f => f 0) = .ok none
      ∧ filterWorkerOnMessage (some tableOneRow) (.processFilters cfgUnknownOp)
          = (some tableOneRow, none) := by
  refine ⟨rfl, rfl, ?_⟩
  have hrun : processRun tableOneRow cfgUnknownOp = none := by
    have hcomp : compileExpression tableOneRow.cols cfgUnknownOp.mode cfgUnknownOp.rules
        = .ok (fun r => evalExprDNF r [[none]]) := rfl
    have hscan : scanLoop tableOneRow.rowCount cfgUnknownOp.rowBatchSize cfgUnknownOp.batchPos
        (fun r => evalExprDNF r [[none]]) cfgUnknownOp.cursor = none := by
      rw [scanLoop]
      have h1 : cfgUnknownOp.cursor < tableOneRow.rowCount := by decide
      rw [dif_pos h1]
      have hbatch : scanBatch (fun r => evalExprDNF r [[none]]) cfgUnknownOp.cursor
          (min (cfgUnknownOp.cursor + cfgUnknownOp.rowBatchSize) tableOneRow.rowCount
            - cfgUnknownOp.cursor) = none := rfl
      rw [hbatch]
    simp only [processRun, hcomp, hscan]
  simp [filterWorkerOnMessage, hrun]

/-- Witness for C5: the well-formed S4 `in` rule compiles and its tester is
defined at row 0, while `ruleUnknownOp` compiles to `null`. -/
theorem unknownOperation_compiles_to_null_witness :
    (cols1000 ruleUnknownOp.field).isSome = true
      ∧ parseOperationName ruleUnknownOp.operation = none
      ∧ ([[rule1000]].all fun cl => cl.all (ruleWellFormed cols1000)) = true
      ∧ generateRuleTester cols1000 ruleUnknownOp = .ok none
      ∧ (compileExpression cols1000 .DNF [[rule1000]]).map (fun f => (f 0).isSome)
          = .ok true := by
  refine ⟨rfl, rfl, by decide, ?_, ?_⟩
  · exact (unknownOperation_compiles_to_null cols1000 ruleUnknownOp .DNF [[rule1000]] 0
      rfl rfl (by decide)).1
  · exact (unknownOperation_compiles_to_null cols1000 ruleUnknownOp .DNF [[rule1000]] 0
      rfl rfl (by decide)).2

/-- C6: the worker message handler, at any reachable state (the state after
any prefix of inbound messages is some `Option ProcessorModel`): an
`initialize` message when a processor is already installed produces an
`error` reply and leaves the processor unchanged; a `processFilters` message
with no processor installed produces an `error` reply; a message of any
unrecognized type produces an `error` reply and changes nothing; otherwise
`initialize` installs the processor and replies `success`, and
`processFilters` — whenever the scan loop runs to completion — replies
`success` with the processor retained. -/
theorem workerProtocol_spec (p table : ProcessorModel) (cfg : ProcessConfig)
    (st : Option ProcessorModel) (ty : String) (res : ResultTable) :
    filterWorkerOnMessage (some p) (.initMessage table)
        = (some p, some (.error "ERROR: Worker is already initialized!"))
      ∧ filterWorkerOnMessage none (.processFilters cfg)
          = (none, some (.error "ERROR: Filter.worker has not been initialized"))
      ∧ filterWorkerOnMessage st (.other ty)
          = (st, some (.error ("ERROR: Unrecognized message type \"" ++ ty ++ "\"")))
      ∧ filterWorkerOnMessage none (.initMessage table) = (some table, some .success)
      ∧ (processRun p cfg = some res →
          filterWorkerOnMessage (some p) (.processFilters cfg) = (some p, some .success)) := by
  refine ⟨rfl, rfl, rfl, rfl, ?_⟩
  intro h
  simp [filterWorkerOnMessage, h]

/-- Witness for C6: a trivially completing scan (zero-row table, empty
expression) makes `processFilters` reply `success`. -/
theorem workerProtocol_spec_witness :
    processRun tableEmptyRows cfgEmptyScan = some ⟨0, []⟩
      ∧ filterWorkerOnMessage (some tableEmptyRows) (.processFilters cfgEmptyScan)
          = (some tableEmptyRows, some .success) := by
  have h : processRun tableEmptyRows cfgEmptyScan = some ⟨0, []⟩ := by
    have hscan : scanLoop tableEmptyRows.rowCount cfgEmptyScan.rowBatchSize
        cfgEmptyScan.batchPos (fun _ => some true) cfgEmptyScan.cursor = some [] := by
      rw [scanLoop]
      have h0 : ¬ cfgEmptyScan.cursor < tableEmptyRows.rowCount := by decide
      rw [dif_neg h0]
    simp only [processRun, show compileExpression tableEmptyRows.cols cfgEmptyScan.mode
        cfgEmptyScan.rules = .ok (fun _ => some true) from rfl, hscan]
    rfl
  exact ⟨h, (workerProtocol_spec tableEmptyRows tableEmptyRows cfgEmptyScan none "" ⟨0, []⟩).2.2.2.2 h⟩

end Kruda
